import Mathlib

/-!
# Verification of the clothing-combination analysis pipeline

Shallow embedding of the repository's analysis code:

* `app.py` (in `ai-clothing-project-full-code.md`): `analyze_color_harmony`,
  `calculate_outfit_score`, `extract_dominant_colors`, `allowed_file`,
  `upload_images`, `generate_combinations`;
* `script.js` (front-end variant): `processFiles`, `removeImage`;
* the class-based front-end variant (`AIStyleMatcher`): `processFiles`,
  `removeImage`.

Conventions:

* Python/JS floating-point numbers are modelled as exact rationals (`ℚ`);
  all thresholds compared against have wide margins.
* A 24-bit color is an `RGB` record of three channel values; the canonical
  6-hex-digit string form used by the Python code is bijective with it, and
  hex strings are produced by `hexOfRGB` where the output format matters.
* Python's `int(x)` (truncation toward zero) is `pyInt`.
* External collaborators (the scikit-learn K-means call, HTTP plumbing) are
  modelled as explicit parameters or arbitrary-state inputs; everything the
  repository itself computes is translated directly from its source.
-/

/-- A 24-bit RGB color: one byte per channel (the Python code parses the
canonical `#rrggbb` form into exactly this triple). -/
structure RGB where
  r : ℕ
  g : ℕ
  b : ℕ
deriving DecidableEq, Repr

/-- Python's `int(x)`: truncation toward zero. -/
def pyInt (q : ℚ) : ℤ := if 0 ≤ q then ⌊q⌋ else ⌈q⌉

/-- Hue in degrees of a color, following `colorsys.rgb_to_hsv(r/255, g/255, b/255)`
applied in `analyze_color_harmony`, then scaled by 360 (`hsv[0] * 360`).
`colorsys` returns `h = ((...)/6.0) % 1.0`, modelled exactly by `Int.fract`. -/
def rgb_to_hue (c : RGB) : ℚ :=
  let r : ℚ := c.r / 255
  let g : ℚ := c.g / 255
  let b : ℚ := c.b / 255
  let maxc := max r (max g b)
  let minc := min r (min g b)
  if minc = maxc then 0
  else
    let rangec := maxc - minc
    let rc := (maxc - r) / rangec
    let gc := (maxc - g) / rangec
    let bc := (maxc - b) / rangec
    let h : ℚ := if r = maxc then bc - gc
      else if g = maxc then 2 + rc - bc
      else 4 + gc - rc
    Int.fract (h / 6) * 360

/-- The inner scan of `analyze_color_harmony`'s double loop: does some later
hue `b` make `160 <= abs(a - b) <= 200` true? -/
def anyCompPair (a : ℚ) (l : List ℚ) : Bool :=
  l.any fun b => decide (160 ≤ |a - b| ∧ |a - b| ≤ 200)

/-- The double loop `for i ... for j in range(i+1, ...)` of
`analyze_color_harmony`: some unordered pair of hues has absolute
difference in [160, 200]. -/
def hasCompPair : List ℚ → Bool
  | [] => false
  | a :: t => anyCompPair a t || hasCompPair t

/-- `max(hues)` (Python) on a nonempty list; 0 on `[]` (unreached: the code
only takes the max after the `len < 2` early return). -/
def listMax : List ℚ → ℚ
  | [] => 0
  | a :: t => t.foldl max a

/-- `min(hues)` (Python) on a nonempty list; 0 on `[]` (unreached). -/
def listMin : List ℚ → ℚ
  | [] => 0
  | a :: t => t.foldl min a

/-- The harmony classification of `analyze_color_harmony` as a function of
the hue list (the code computes `hues` first and only ever uses those). -/
def classify_hues (hues : List ℚ) : String :=
  if hues.length < 2 then "monochrome"
  else if hasCompPair hues then "complementary"
  else if listMax hues - listMin hues ≤ 60 then "analogous"
  else if listMax hues - listMin hues ≤ 120 then "triadic"
  else "diverse"

/-- `analyze_color_harmony(colors)` of `app.py`: convert every color to its
hue in degrees, then classify. -/
def analyze_color_harmony (colors : List RGB) : String :=
  classify_hues (colors.map rgb_to_hue)

/-- Circular hue distance on the 360-degree wheel (the spec's reading of
"circular difference"). -/
def circDiff (a b : ℚ) : ℚ := min |a - b| (360 - |a - b|)

/-- The spec-level complementary condition: some unordered pair of hues has
circular difference in [160, 200]. -/
def complementaryPairExists (hues : List ℚ) : Prop :=
  ∃ a ∈ hues, ∃ b ∈ hues, 160 ≤ circDiff a b ∧ circDiff a b ≤ 200

/-! ### Outfit scoring: `calculate_outfit_score` of `app.py` -/

/-- An uploaded image as the scoring code sees it. The backend's image dicts
also carry `id`, `filename`, `url`, `clothing_type`, … — `calculate_outfit_score`
and `generate_combinations` read only the `colors` list, so the embedding
keeps exactly that field. -/
structure ImageData where
  colors : List RGB
deriving DecidableEq, Repr

/-- The `harmony_scores` lookup with its `.get(harmony, 70)` fallback. -/
def harmony_scores (harmony : String) : ℤ :=
  if harmony = "complementary" then 95
  else if harmony = "analogous" then 90
  else if harmony = "triadic" then 85
  else if harmony = "monochrome" then 80
  else if harmony = "diverse" then 75
  else 70

/-- The `occasion_multipliers` dict (each entry conditioned on the harmony
label) with its `.get(occasion, 0.9)` fallback. -/
def occasion_multiplier (harmony occasion : String) : ℚ :=
  if occasion = "formal" then
    (if harmony = "complementary" ∨ harmony = "monochrome" then 9/10 else 8/10)
  else if occasion = "casual" then 95/100
  else if occasion = "party" then
    (if harmony = "complementary" ∨ harmony = "diverse" then 95/100 else 85/100)
  else if occasion = "business" then
    (if harmony = "monochrome" ∨ harmony = "analogous" then 9/10 else 8/10)
  else if occasion = "sports" then 9/10
  else if occasion = "wedding" then
    (if harmony = "complementary" then 95/100 else 85/100)
  else 9/10

/-- The tail of `calculate_outfit_score` once the harmony label is known:
`min(95, max(65, int(color_score * multiplier)))`. -/
def score_from_harmony (harmony occasion : String) : ℤ :=
  min 95 (max 65 (pyInt ((harmony_scores harmony : ℚ) * occasion_multiplier harmony occasion)))

/-- The `all_colors` accumulation loop: `all_colors.extend(img_data.get('colors', []))`. -/
def allColors : List ImageData → List RGB
  | [] => []
  | img :: rest => img.colors ++ allColors rest

/-- `calculate_outfit_score(images_data, occasion, color_preference)`: returns
the base score 70 when no colors are present, otherwise scores the harmony of
all colors. The `color_preference` parameter is accepted and never read,
exactly as in the Python body. -/
def calculate_outfit_score (images_data : List ImageData)
    (occasion color_preference : String) : ℤ :=
  if allColors images_data = [] then 70
  else score_from_harmony (analyze_color_harmony (allColors images_data)) occasion

/-- The star rating `min(5, max(1, int(score / 20) + 1))` assigned by
`generate_combinations`. -/
def rating_of (score : ℤ) : ℤ := min 5 (max 1 (pyInt ((score : ℚ) / 20) + 1))

/-! ### Combination generation: `generate_combinations` of `app.py` -/

/-- One generated combination. The endpoint also attaches three templated
text fields (`style_notes`, `color_analysis`, `recommendation`) built by pure
string lookup; they play no role in any claim and are omitted. -/
structure Combination where
  id : ℤ
  images : List ImageData
  score : ℤ
  rating : ℤ
  harmony : String
deriving DecidableEq, Repr

/-- The `[:2]`-capped color accumulation used for the returned `harmony`
field: `all_colors.extend(img.get('colors', [])[:2])`. -/
def allColorsTop2 : List ImageData → List RGB
  | [] => []
  | img :: rest => img.colors.take 2 ++ allColorsTop2 rest

/-- The slice `images_data[i:i+combo_size]` extended with a wrap-around pad
`images_data[:combo_size - len(selected)]` when the slice is short. -/
def wrapSelect (images_data : List ImageData) (i combo_size : ℕ) : List ImageData :=
  let selected := (images_data.drop i).take combo_size
  if selected.length < combo_size then
    selected ++ images_data.take (combo_size - selected.length)
  else selected

/-- The body of the `for i in range(num_combinations)` loop: one combination
record. Note the mismatch the loop contains: `score` is computed from the
images' full color lists while the `harmony` field is recomputed from only
the top 2 colors per image. -/
def mkCombination (images_data : List ImageData) (occasion color_preference : String)
    (i : ℕ) : Combination :=
  let combo_size := min 4 (max 2 (images_data.length - i))
  let selected := wrapSelect images_data i combo_size
  let score := calculate_outfit_score selected occasion color_preference
  { id := (i : ℤ) + 1
    images := selected
    score := score
    rating := rating_of score
    harmony := analyze_color_harmony (allColorsTop2 selected) }

/-- Stable insertion used to model Python's stable
`combinations.sort(key=..., reverse=True)`: an element is placed before the
first strictly smaller score. -/
def insertByScore (c : Combination) : List Combination → List Combination
  | [] => [c]
  | d :: t => if d.score ≤ c.score then c :: d :: t else d :: insertByScore c t

/-- Stable sort of the combinations by score, highest first. -/
def sortByScoreDesc : List Combination → List Combination
  | [] => []
  | c :: t => insertByScore c (sortByScoreDesc t)

/-- `generate_combinations` of `app.py` as a function of the parsed request
fields: `400` below 2 images, otherwise `min(4, len)` sliding-window
combinations sorted by score descending. `clothingType` only feeds the
omitted text fields. -/
def generate_combinations (images_data : List ImageData)
    (occasion clothingType color_preference : String) :
    Except String (List Combination) :=
  if images_data.length < 2 then
    Except.error "At least 2 images required for combinations"
  else
    Except.ok (sortByScoreDesc ((List.range (min 4 images_data.length)).map
      (mkCombination images_data occasion color_preference)))

/-! ### Color extraction: `extract_dominant_colors` of `app.py`

`cv2.imread` and the scikit-learn `KMeans` call are external collaborators:
the image is an `ImageInput` (`unreadable` models `imread` returning `None`),
and the clustering is a parameter `km` returning `none` when the library
raises (zero pixels / fewer samples than clusters) and otherwise the list of
clusters in the library's label order. `kmeansContract` records what the
library guarantees about a successful call. -/

/-- The readable/unreadable outcome of `cv2.imread` plus the pixel list. -/
inductive ImageInput where
  | unreadable : ImageInput
  | pixels (px : List RGB) : ImageInput

/-- One lowercase hex digit, as produced by Python's `{:02x}` format. -/
def hexDigit (n : ℕ) : Char := if n < 10 then Char.ofNat (48 + n) else Char.ofNat (87 + n)

/-- Two lowercase hex digits of a byte. -/
def hexByte (n : ℕ) : String := String.mk [hexDigit (n / 16 % 16), hexDigit (n % 16)]

/-- `'#{:02x}{:02x}{:02x}'.format(...)`. -/
def hexOfRGB (c : RGB) : String := "#" ++ hexByte c.r ++ hexByte c.g ++ hexByte c.b

/-- `kmeans.cluster_centers_.astype(int)` for one cluster: the per-channel
mean truncated to an integer. -/
def centroid (cluster : List RGB) : RGB :=
  { r := (pyInt ((cluster.map fun p => (p.r : ℚ)).sum / cluster.length)).toNat
    g := (pyInt ((cluster.map fun p => (p.g : ℚ)).sum / cluster.length)).toNat
    b := (pyInt ((cluster.map fun p => (p.b : ℚ)).sum / cluster.length)).toNat }

/-- `extract_dominant_colors(image_path, num_colors)`: `[]` when the image is
unreadable (`imread` returns `None`), the `['#000000', '#FFFFFF']` fallback
when the `try` block raises (modelled by `km` returning `none`), otherwise
one hex color per cluster centroid in the library's label order. -/
def extract_dominant_colors (km : List RGB → ℕ → Option (List (List RGB)))
    (image : ImageInput) (num_colors : ℕ) : List String :=
  match image with
  | ImageInput.unreadable => []
  | ImageInput.pixels px =>
    match km px num_colors with
    | none => ["#000000", "#FFFFFF"]
    | some clusters => clusters.map fun cluster => hexOfRGB (centroid cluster)

/-- What a successful scikit-learn `KMeans(n_clusters=k).fit` guarantees:
it raises on an empty sample list, and a returned clustering has exactly `k`
nonempty clusters partitioning the pixels. Nothing constrains the label
order. -/
def kmeansContract (km : List RGB → ℕ → Option (List (List RGB))) : Prop :=
  (∀ k, km [] k = none) ∧
  ∀ px k clusters, km px k = some clusters →
    clusters.length = k ∧ (∀ cl ∈ clusters, cl ≠ []) ∧ clusters.flatten.Perm px

/-- Insertion step for sorting clusters by size, largest first (the ordering
the spec asserts; the code itself never sorts). -/
def insertBySize (c : List RGB) : List (List RGB) → List (List RGB)
  | [] => [c]
  | d :: t => if d.length ≤ c.length then c :: d :: t else d :: insertBySize c t

/-- Clusters sorted by size, largest first. -/
def sortClustersBySize : List (List RGB) → List (List RGB)
  | [] => []
  | c :: t => insertBySize c (sortClustersBySize t)

/-- A clustering oracle that always raises; used as the concrete instance for
the unreadable-image and zero-pixel paths. -/
def kmNone : List RGB → ℕ → Option (List (List RGB)) := fun _ _ => none

/-! ### The `/api/upload` endpoint: `upload_images` and `allowed_file` -/

def ALLOWED_EXTENSIONS : List String := ["png", "jpg", "jpeg", "gif", "bmp", "webp"]

/-- ASCII lowercasing of one character (`str.lower()` on the extensions in
play). -/
def lowerChar (ch : Char) : Char :=
  if 'A' ≤ ch ∧ ch ≤ 'Z' then Char.ofNat (ch.toNat + 32) else ch

/-- `filename.rsplit('.', 1)[1].lower()`: the part after the last dot,
lowercased. -/
def extensionOf (filename : String) : String :=
  String.mk (((filename.toList.reverse.takeWhile fun ch => ch ≠ '.').reverse).map lowerChar)

/-- `allowed_file(filename)` of `app.py`. -/
def allowed_file (filename : String) : Bool :=
  filename.toList.contains '.' && ALLOWED_EXTENSIONS.contains (extensionOf filename)

/-- A `/api/upload` request: whether the multipart field `images` is present,
and the filenames of the uploaded files (a Werkzeug `FileStorage` is falsy
exactly when its filename is empty, so filenames determine the control
flow). -/
structure UploadRequest where
  hasImagesField : Bool
  files : List String
deriving DecidableEq, Repr

/-- The JSON responses `upload_images` can produce: an error body with an
HTTP status, or a success body listing the processed files. -/
inductive ApiResponse where
  | err (status : ℕ) (msg : String)
  | ok (processed : List String)
deriving DecidableEq, Repr

/-- `upload_images` of `app.py`: 400 when the field is missing or no file /
only empty filenames; otherwise every named file with an allowed extension
is processed and a success body is returned — even when that list is empty. -/
def upload_images (req : UploadRequest) : ApiResponse :=
  if req.hasImagesField = false then ApiResponse.err 400 "No images provided"
  else if req.files = [] ∨ req.files.all (fun f => f == "") then
    ApiResponse.err 400 "No images selected"
  else ApiResponse.ok (req.files.filter fun f => (!(f == "")) && allowed_file f)

/-- HTTP status of a response (Flask defaults `jsonify(...)` to 200). -/
def responseStatus : ApiResponse → ℕ
  | ApiResponse.err s _ => s
  | ApiResponse.ok _ => 200

/-! ### Front-end working set: `script.js` (`processFiles` / `removeImage`) -/

/-- `s.startsWith(p)` on JS strings. -/
def startsWithStr (p s : String) : Bool :=
  decide (s.toList.take p.toList.length = p.toList)

/-- One entry of the global `uploadedFiles` array: built in the
`FileReader.onload` callback as `{file, url, name, id}`; the `id` is the
number `Date.now() + Math.random()`. -/
structure FileData where
  id : ℚ
  name : String
deriving DecidableEq, Repr

/-- A browser `File` together with the entry its `onload` callback builds. -/
structure JSFile where
  mime : String
  entry : FileData
deriving DecidableEq, Repr

/-- `processFiles(files)` of `script.js` restricted to its state effect on
`uploadedFiles`: each file of image MIME type has its entry pushed, in
order. -/
def processFiles (uploadedFiles : List FileData) (files : List JSFile) : List FileData :=
  uploadedFiles ++ (files.filter fun f => startsWithStr "image/" f.mime).map fun f => f.entry

/-- `removeImage(id)` of `script.js`:
`uploadedFiles = uploadedFiles.filter(file => file.id !== id)`. -/
def removeImage (uploadedFiles : List FileData) (id : ℚ) : List FileData :=
  uploadedFiles.filter fun f => decide (f.id ≠ id)

namespace AIStyleMatcher

/-- One entry of `this.uploadedImages` in the class-based variant. -/
structure UploadedImage where
  id : ℚ
  name : String
deriving DecidableEq, Repr

/-- A browser `File` as the class-based `processFiles` inspects it. -/
structure BrowserFile where
  name : String
  mime : String
deriving DecidableEq, Repr

/-- `file.type.startsWith('image/')`. -/
def isImageFile (f : BrowserFile) : Bool := startsWithStr "image/" f.mime

/-- `processFiles(files)` of the class-based variant. The guard
`this.uploadedImages.length < 12` runs synchronously for every file of the
batch, but each push happens later in a `FileReader.onload` callback: the JS
event loop dispatches `onload` only after the current task (the whole
`forEach`) finishes, so all the guards see the pre-batch length and then all
accepted files are pushed unconditionally. -/
def processFiles (newId : ℕ → ℚ) (uploadedImages : List UploadedImage)
    (files : List BrowserFile) : List UploadedImage :=
  let imageFiles := files.filter isImageFile
  let accepted := if uploadedImages.length < 12 then imageFiles else []
  uploadedImages ++ accepted.enum.map fun p => { id := newId p.1, name := p.2.name }

/-- `removeImage(imageId)` of the class-based variant. -/
def removeImage (uploadedImages : List UploadedImage) (imageId : ℚ) : List UploadedImage :=
  uploadedImages.filter fun img => decide (img.id ≠ imageId)

end AIStyleMatcher

/-! ### Concrete inputs used by witnesses and counterexamples -/

def red : RGB := ⟨255, 0, 0⟩

def blue : RGB := ⟨0, 0, 255⟩

def white : RGB := ⟨255, 255, 255⟩

def black : RGB := ⟨0, 0, 0⟩

/-- An image whose top-2 colors are red and whose tail color is blue. -/
def redBlueImage : ImageData := ⟨[red, red, blue]⟩

/-- An image with only red colors. -/
def redImage : ImageData := ⟨[red, red]⟩

/-- Five uploaded images: the first carries a hidden blue third color, the
rest are pure red. -/
def mismatchImages : List ImageData :=
  [redBlueImage, redImage, redImage, redImage, redImage]

def combo0 : Combination := mkCombination mismatchImages "casual" "" 0

def combo1 : Combination := mkCombination mismatchImages "casual" "" 1

def combo2 : Combination := mkCombination mismatchImages "casual" "" 2

def combo3 : Combination := mkCombination mismatchImages "casual" "" 3

/-- Ten pixels: one white, nine black. -/
def cexPx : List RGB := white :: List.replicate 9 black

/-- A clustering oracle satisfying `kmeansContract` that labels the singleton
white cluster first — an order scikit-learn is free to produce, since labels
do not follow cluster sizes. -/
def km0 : List RGB → ℕ → Option (List (List RGB)) :=
  fun px k =>
    if px = cexPx ∧ k = 2 then some [[white], List.replicate 9 black] else none

/-! ### Supporting lemmas for the harmony classifier -/

lemma fract_mul_360_bounds (q : ℚ) :
    0 ≤ Int.fract q * 360 ∧ Int.fract q * 360 < 360 := by
  constructor
  · exact mul_nonneg (Int.fract_nonneg q) (by norm_num)
  · have h := Int.fract_lt_one q
    linarith

lemma rgb_to_hue_bounds (c : RGB) : 0 ≤ rgb_to_hue c ∧ rgb_to_hue c < 360 := by
  rw [rgb_to_hue]
  split
  · norm_num
  · exact fract_mul_360_bounds _

lemma anyCompPair_iff (a : ℚ) (l : List ℚ) :
    anyCompPair a l = true ↔ ∃ b ∈ l, 160 ≤ |a - b| ∧ |a - b| ≤ 200 := by
  simp [anyCompPair]

lemma hasCompPair_iff (l : List ℚ) :
    hasCompPair l = true ↔ ∃ a ∈ l, ∃ b ∈ l, 160 ≤ |a - b| ∧ |a - b| ≤ 200 := by
  induction l with
  | nil => simp [hasCompPair]
  | cons a t ih =>
    simp only [hasCompPair, Bool.or_eq_true, anyCompPair_iff, ih]
    constructor
    · rintro (⟨b, hb, hc⟩ | ⟨x, hx, y, hy, hc⟩)
      · exact ⟨a, List.mem_cons_self a t, b, List.mem_cons_of_mem a hb, hc⟩
      · exact ⟨x, List.mem_cons_of_mem a hx, y, List.mem_cons_of_mem a hy, hc⟩
    · rintro ⟨x, hx, y, hy, hc⟩
      rcases List.mem_cons.mp hx with hxa | hx
      · rcases List.mem_cons.mp hy with hya | hy
        · exfalso
          rw [hxa, hya, sub_self, abs_zero] at hc
          linarith [hc.1]
        · refine Or.inl ⟨y, hy, ?_⟩
          rwa [hxa] at hc
      · rcases List.mem_cons.mp hy with hya | hy
        · refine Or.inl ⟨x, hx, ?_⟩
          rw [abs_sub_comm] at hc
          rwa [hya] at hc
        · exact Or.inr ⟨x, hx, y, hy, hc⟩

lemma circDiff_band_iff (a b : ℚ) (ha : 0 ≤ a ∧ a < 360) (hb : 0 ≤ b ∧ b < 360) :
    (160 ≤ circDiff a b ∧ circDiff a b ≤ 200) ↔ (160 ≤ |a - b| ∧ |a - b| ≤ 200) := by
  have hd : |a - b| < 360 := by
    rw [abs_lt]
    constructor <;> linarith [ha.1, ha.2, hb.1, hb.2]
  unfold circDiff
  rcases le_total |a - b| 180 with h | h
  · rw [min_eq_left (by linarith)]
  · rw [min_eq_right (by linarith)]
    constructor
    · rintro ⟨h1, h2⟩
      exact ⟨by linarith, by linarith⟩
    · rintro ⟨h1, h2⟩
      exact ⟨by linarith, by linarith⟩

lemma foldl_max_spec (a : ℚ) (t : List ℚ) :
    (t.foldl max a = a ∨ t.foldl max a ∈ t) ∧
      a ≤ t.foldl max a ∧ ∀ x ∈ t, x ≤ t.foldl max a := by
  induction t generalizing a with
  | nil => simp
  | cons b t ih =>
    obtain ⟨hmem, hle, hall⟩ := ih (max a b)
    refine ⟨?_, le_trans (le_max_left a b) hle, ?_⟩
    · rcases hmem with h | h
      · rcases max_choice a b with hm | hm
        · left
          rw [List.foldl_cons, h, hm]
        · right
          rw [List.foldl_cons, h, hm]
          exact List.mem_cons_self b t
      · right
        exact List.mem_cons_of_mem b h
    · intro x hx
      rcases List.mem_cons.mp hx with rfl | hx
      · exact le_trans (le_max_right a x) hle
      · exact hall x hx

lemma foldl_min_spec (a : ℚ) (t : List ℚ) :
    (t.foldl min a = a ∨ t.foldl min a ∈ t) ∧
      t.foldl min a ≤ a ∧ ∀ x ∈ t, t.foldl min a ≤ x := by
  induction t generalizing a with
  | nil => simp
  | cons b t ih =>
    obtain ⟨hmem, hle, hall⟩ := ih (min a b)
    refine ⟨?_, le_trans hle (min_le_left a b), ?_⟩
    · rcases hmem with h | h
      · rcases min_choice a b with hm | hm
        · left
          rw [List.foldl_cons, h, hm]
        · right
          rw [List.foldl_cons, h, hm]
          exact List.mem_cons_self b t
      · right
        exact List.mem_cons_of_mem b h
    · intro x hx
      rcases List.mem_cons.mp hx with rfl | hx
      · exact le_trans hle (min_le_right a x)
      · exact hall x hx

lemma listMax_mem (l : List ℚ) (h : l ≠ []) : listMax l ∈ l := by
  match l with
  | [] => exact absurd rfl h
  | a :: t =>
    rcases (foldl_max_spec a t).1 with h1 | h1
    · rw [listMax, h1]
      exact List.mem_cons_self a t
    · exact List.mem_cons_of_mem a h1

lemma le_listMax (l : List ℚ) : ∀ x ∈ l, x ≤ listMax l := by
  intro x hx
  match l with
  | a :: t =>
    rcases List.mem_cons.mp hx with rfl | hx
    · exact (foldl_max_spec x t).2.1
    · exact (foldl_max_spec a t).2.2 x hx

lemma listMin_mem (l : List ℚ) (h : l ≠ []) : listMin l ∈ l := by
  match l with
  | [] => exact absurd rfl h
  | a :: t =>
    rcases (foldl_min_spec a t).1 with h1 | h1
    · rw [listMin, h1]
      exact List.mem_cons_self a t
    · exact List.mem_cons_of_mem a h1

lemma listMin_le (l : List ℚ) : ∀ x ∈ l, listMin l ≤ x := by
  intro x hx
  match l with
  | a :: t =>
    rcases List.mem_cons.mp hx with rfl | hx
    · exact (foldl_min_spec x t).2.1
    · exact (foldl_min_spec a t).2.2 x hx

lemma hasCompPair_iff_circ (l : List ℚ) (hb : ∀ h ∈ l, 0 ≤ h ∧ h < 360) :
    hasCompPair l = true ↔ complementaryPairExists l := by
  rw [hasCompPair_iff]
  constructor
  · rintro ⟨a, ha, b, hbm, hc⟩
    exact ⟨a, ha, b, hbm, (circDiff_band_iff a b (hb a ha) (hb b hbm)).mpr hc⟩
  · rintro ⟨a, ha, b, hbm, hc⟩
    exact ⟨a, ha, b, hbm, (circDiff_band_iff a b (hb a ha) (hb b hbm)).mp hc⟩

/-- C1: `analyze_color_harmony` returns `monochrome` below 2 colors; with at
least 2 colors it returns `complementary` exactly when some unordered pair of
hues (each in [0, 360)) has circular difference in [160, 200] — the code's
absolute difference test is equivalent to the circular one on that range —
and only otherwise classifies by the hue range `max − min`: `analogous` up to
60, `triadic` up to 120, `diverse` beyond. -/
theorem C1_harmony_classification (colors : List RGB) :
    (colors.length < 2 → analyze_color_harmony colors = "monochrome") ∧
    (2 ≤ colors.length →
      (complementaryPairExists (colors.map rgb_to_hue) →
        analyze_color_harmony colors = "complementary") ∧
      (¬ complementaryPairExists (colors.map rgb_to_hue) →
        ∃ r : ℚ,
          (∃ a ∈ colors.map rgb_to_hue, ∃ b ∈ colors.map rgb_to_hue, r = a - b) ∧
          (∀ a ∈ colors.map rgb_to_hue, ∀ b ∈ colors.map rgb_to_hue, a - b ≤ r) ∧
          analyze_color_harmony colors =
            if r ≤ 60 then "analogous"
            else if r ≤ 120 then "triadic"
            else "diverse")) := by
  have hbound : ∀ h ∈ colors.map rgb_to_hue, 0 ≤ h ∧ h < 360 := by
    intro h hmem
    obtain ⟨c, _, rfl⟩ := List.mem_map.mp hmem
    exact rgb_to_hue_bounds c
  have hlen : (colors.map rgb_to_hue).length = colors.length := List.length_map _ _
  have hcomp := hasCompPair_iff_circ (colors.map rgb_to_hue) hbound
  refine ⟨?_, ?_⟩
  · intro h
    unfold analyze_color_harmony classify_hues
    rw [if_pos (by omega)]
  · intro h2
    have hne : colors.map rgb_to_hue ≠ [] := by
      apply List.ne_nil_of_length_pos
      omega
    refine ⟨?_, ?_⟩
    · intro hex
      unfold analyze_color_harmony classify_hues
      rw [if_neg (by omega), if_pos (hcomp.mpr hex)]
    · intro hnex
      refine ⟨listMax (colors.map rgb_to_hue) - listMin (colors.map rgb_to_hue),
        ⟨listMax _ , listMax_mem _ hne, listMin _, listMin_mem _ hne, rfl⟩, ?_, ?_⟩
      · intro a ha b hb
        exact sub_le_sub (le_listMax _ a ha) (listMin_le _ b hb)
      · unfold analyze_color_harmony classify_hues
        rw [if_neg (by omega), if_neg (fun hc => hnex (hcomp.mp hc))]

/-! Concrete hue evaluations used by witnesses and explicit inputs. -/

lemma hue_red : rgb_to_hue ⟨255, 0, 0⟩ = 0 := by
  norm_num [rgb_to_hue, Int.fract]

lemma hue_cyan : rgb_to_hue ⟨0, 255, 255⟩ = 180 := by
  norm_num [rgb_to_hue, Int.fract]

lemma hue_blue : rgb_to_hue ⟨0, 0, 255⟩ = 240 := by
  norm_num [rgb_to_hue, Int.fract]

/-- Witness for C1 at the spec's own example: solid red `#FF0000` (hue 0)
and cyan `#00FFFF` (hue 180, circular difference 180) classify as
`complementary`. -/
theorem C1_harmony_witness :
    analyze_color_harmony [⟨255, 0, 0⟩, ⟨0, 255, 255⟩] = "complementary" := by
  have hex : complementaryPairExists ([⟨255, 0, 0⟩, ⟨0, 255, 255⟩].map rgb_to_hue) := by
    refine ⟨rgb_to_hue ⟨255, 0, 0⟩, by simp, rgb_to_hue ⟨0, 255, 255⟩, by simp, ?_⟩
    rw [hue_red, hue_cyan]
    norm_num [circDiff]
  exact ((C1_harmony_classification [⟨255, 0, 0⟩, ⟨0, 255, 255⟩]).2 (by simp)).1 hex

/-! ### Score bounds and determinism -/

lemma score_from_harmony_bounds (harmony occasion : String) :
    65 ≤ score_from_harmony harmony occasion ∧ score_from_harmony harmony occasion ≤ 95 := by
  unfold score_from_harmony
  exact ⟨le_min (by norm_num) (le_max_left 65 _), min_le_left _ _⟩

lemma calculate_outfit_score_bounds (images_data : List ImageData) (occ cp : String) :
    65 ≤ calculate_outfit_score images_data occ cp ∧
      calculate_outfit_score images_data occ cp ≤ 95 := by
  unfold calculate_outfit_score
  split
  · norm_num
  · exact score_from_harmony_bounds _ _

/-- C2: for every harmony label (those of the lookup table and any other,
which falls back to base 70) and every occasion (those of the multiplier
table and any other, which falls back to 0.9), the backend score is an
integer of [65, 95]; consequently `calculate_outfit_score` always lands in
[65, 95] as well. -/
theorem C2_score_bounds (harmony occasion : String) :
    (65 ≤ score_from_harmony harmony occasion ∧ score_from_harmony harmony occasion ≤ 95) ∧
    ∀ images_data color_preference,
      65 ≤ calculate_outfit_score images_data occasion color_preference ∧
      calculate_outfit_score images_data occasion color_preference ≤ 95 :=
  ⟨score_from_harmony_bounds harmony occasion,
   fun images_data color_preference =>
     calculate_outfit_score_bounds images_data occasion color_preference⟩

/-- C9: `calculate_outfit_score` never reads its `color_preference`
argument — two calls differing only there return equal scores. The Python
body binds the parameter and never mentions it again, so the embedded
function is literally constant in it. -/
theorem C9_color_preference_ignored (images_data : List ImageData)
    (occasion p1 p2 : String) :
    calculate_outfit_score images_data occasion p1 =
      calculate_outfit_score images_data occasion p2 := rfl

/-! ### Membership through the stable sort -/

lemma mem_insertByScore (c d : Combination) (l : List Combination) :
    c ∈ insertByScore d l ↔ c = d ∨ c ∈ l := by
  induction l with
  | nil => simp [insertByScore]
  | cons e t ih =>
    unfold insertByScore
    split
    · simp [List.mem_cons]
    · simp only [List.mem_cons, ih]
      tauto

lemma mem_sortByScoreDesc (c : Combination) (l : List Combination) :
    c ∈ sortByScoreDesc l ↔ c ∈ l := by
  induction l with
  | nil => simp [sortByScoreDesc]
  | cons d t ih =>
    unfold sortByScoreDesc
    rw [mem_insertByScore, ih, List.mem_cons]

lemma generate_mem (images_data : List ImageData) (occ ct cp : String)
    (combos : List Combination)
    (h : generate_combinations images_data occ ct cp = Except.ok combos) :
    ∀ c ∈ combos, ∃ i, c = mkCombination images_data occ cp i := by
  unfold generate_combinations at h
  split at h
  · exact absurd h (by simp)
  · injection h with h
    intro c hc
    rw [← h, mem_sortByScoreDesc] at hc
    obtain ⟨i, _, hi⟩ := List.mem_map.mp hc
    exact ⟨i, hi.symm⟩

lemma mkCombination_fields (images_data : List ImageData) (occ cp : String) (i : ℕ) :
    (mkCombination images_data occ cp i).rating =
        rating_of (mkCombination images_data occ cp i).score ∧
      65 ≤ (mkCombination images_data occ cp i).score ∧
      (mkCombination images_data occ cp i).score ≤ 95 :=
  ⟨rfl, calculate_outfit_score_bounds
    (wrapSelect images_data i (min 4 (max 2 (images_data.length - i)))) occ cp⟩

/-- C4: every generated combination's rating field is
`min(5, max(1, int(score/20) + 1))` of its score, which for the reachable
scores (integers of [65, 95]) equals `clamp(floor(score/20) + 1, 1, 5)` and
is always 4 or 5; the boundary scores check out as 65 → 4, 80 → 5, 95 → 5. -/
theorem C4_rating_clamp :
    (∀ images_data occ ct cp combos,
      generate_combinations images_data occ ct cp = Except.ok combos →
      ∀ c ∈ combos, c.rating = rating_of c.score ∧ 65 ≤ c.score ∧ c.score ≤ 95) ∧
    (∀ s : ℤ, 65 ≤ s → s ≤ 95 →
      rating_of s = min 5 (max 1 (⌊(s : ℚ) / 20⌋ + 1)) ∧
      (rating_of s = 4 ∨ rating_of s = 5)) ∧
    rating_of 65 = 4 ∧ rating_of 80 = 5 ∧ rating_of 95 = 5 := by
  refine ⟨?_, ?_, ?_, ?_, ?_⟩
  · intro images_data occ ct cp combos h c hc
    obtain ⟨i, rfl⟩ := generate_mem images_data occ ct cp combos h c hc
    exact mkCombination_fields images_data occ cp i
  · intro s h1 h2
    have hfl : pyInt ((s : ℚ) / 20) = ⌊(s : ℚ) / 20⌋ := by
      unfold pyInt
      rw [if_pos]
      positivity
    constructor
    · rw [rating_of, hfl]
    · rw [rating_of, hfl]
      have hcast1 : (65 : ℚ) ≤ (s : ℚ) := by exact_mod_cast h1
      have hcast2 : (s : ℚ) ≤ 95 := by exact_mod_cast h2
      have hf3 : (3 : ℤ) ≤ ⌊(s : ℚ) / 20⌋ := by
        apply Int.le_floor.mpr
        push_cast
        linarith
      have hf4 : ⌊(s : ℚ) / 20⌋ < 5 := by
        apply Int.floor_lt.mpr
        push_cast
        linarith
      omega
  · norm_num [rating_of, pyInt]
  · norm_num [rating_of, pyInt]
  · norm_num [rating_of, pyInt]

/-- Witness for C4: the boundary score 65 rates 4, via the theorem itself. -/
theorem C4_rating_witness : rating_of 65 = 4 ∨ rating_of 65 = 5 :=
  (C4_rating_clamp.2.1 65 (by norm_num) (by norm_num)).2

/-! ### Concrete harmony and score evaluations -/

lemma hasCompPair_eq_false (l : List ℚ)
    (h : ∀ a ∈ l, ∀ b ∈ l, ¬(160 ≤ |a - b| ∧ |a - b| ≤ 200)) :
    hasCompPair l = false := by
  rw [Bool.eq_false_iff]
  intro hc
  obtain ⟨a, ha, b, hb, hcc⟩ := (hasCompPair_iff l).mp hc
  exact h a ha b hb hcc

lemma classify_all_zero (hues : List ℚ) (h : ∀ x ∈ hues, x = 0)
    (h2 : 2 ≤ hues.length) : classify_hues hues = "analogous" := by
  have hne : hues ≠ [] := List.ne_nil_of_length_pos (by omega)
  have hcomp : hasCompPair hues = false := by
    apply hasCompPair_eq_false
    intro a ha b hb
    rw [h a ha, h b hb]
    norm_num
  have hmax := h _ (listMax_mem hues hne)
  have hmin := h _ (listMin_mem hues hne)
  unfold classify_hues
  rw [if_neg (by omega), if_neg (by simp [hcomp]), hmax, hmin]
  norm_num

lemma classify_zero_240 (hues : List ℚ) (h : ∀ x ∈ hues, x = 0 ∨ x = 240)
    (h0 : (0 : ℚ) ∈ hues) (h240 : (240 : ℚ) ∈ hues) :
    classify_hues hues = "diverse" := by
  have hne : hues ≠ [] := by
    intro he
    rw [he] at h0
    exact List.not_mem_nil 0 h0
  have hlen : ¬ hues.length < 2 := by
    intro hlt
    rcases hues with _ | ⟨a, _ | ⟨b, t⟩⟩
    · exact List.not_mem_nil 0 h0
    · rw [List.mem_singleton] at h0 h240
      rw [← h0] at h240
      norm_num at h240
    · simp at hlt
      omega
  have hcomp : hasCompPair hues = false := by
    apply hasCompPair_eq_false
    intro a ha b hb
    rcases h a ha with h1 | h1 <;> rcases h b hb with h2 | h2 <;>
      rw [h1, h2] <;> norm_num
  have hmax : listMax hues = 240 := by
    have hle := le_listMax hues 240 h240
    rcases h (listMax hues) (listMax_mem hues hne) with h2 | h2
    · rw [h2] at hle
      norm_num at hle
    · exact h2
  have hmin : listMin hues = 0 := by
    have hle := listMin_le hues 0 h0
    rcases h (listMin hues) (listMin_mem hues hne) with h2 | h2
    · exact h2
    · rw [h2] at hle
      norm_num at hle
  unfold classify_hues
  rw [if_neg hlen, if_neg (by simp [hcomp]), hmax, hmin]
  norm_num

lemma all_red_eval (l : List RGB) (h : ∀ c ∈ l, c = red) (h2 : 2 ≤ l.length) :
    analyze_color_harmony l = "analogous" := by
  unfold analyze_color_harmony
  apply classify_all_zero
  · intro x hx
    obtain ⟨c, hc, rfl⟩ := List.mem_map.mp hx
    rw [h c hc]
    rw [show red = ⟨255, 0, 0⟩ from rfl, hue_red]
  · rw [List.length_map]
    exact h2

lemma analyze_mix_eval :
    analyze_color_harmony [red, red, blue, red, red, red, red, red, red] = "diverse" := by
  unfold analyze_color_harmony
  rw [show [red, red, blue, red, red, red, red, red, red].map rgb_to_hue
      = [0, 0, 240, 0, 0, 0, 0, 0, 0] from by simp [red, blue, hue_red, hue_blue]]
  apply classify_zero_240
  · intro x hx
    simp at hx
    tauto
  · simp
  · simp

lemma score_analogous_casual : score_from_harmony "analogous" "casual" = 85 := by
  simp [score_from_harmony, harmony_scores, occasion_multiplier, pyInt]
  norm_num

lemma score_diverse_casual : score_from_harmony "diverse" "casual" = 71 := by
  simp [score_from_harmony, harmony_scores, occasion_multiplier, pyInt]
  norm_num

lemma rating_eval_85 : rating_of 85 = 5 := by norm_num [rating_of, pyInt]

lemma rating_eval_71 : rating_of 71 = 4 := by norm_num [rating_of, pyInt]

/-! ### The four combinations generated from `mismatchImages` -/

lemma combo0_score : combo0.score = 71 := by
  show calculate_outfit_score [redBlueImage, redImage, redImage, redImage] "casual" "" = 71
  unfold calculate_outfit_score
  rw [if_neg (by decide)]
  rw [show allColors [redBlueImage, redImage, redImage, redImage]
      = [red, red, blue, red, red, red, red, red, red] from rfl]
  rw [analyze_mix_eval]
  exact score_diverse_casual

lemma combo1_score : combo1.score = 85 := by
  show calculate_outfit_score [redImage, redImage, redImage, redImage] "casual" "" = 85
  unfold calculate_outfit_score
  rw [if_neg (by decide)]
  rw [all_red_eval (allColors [redImage, redImage, redImage, redImage]) (by decide) (by decide)]
  exact score_analogous_casual

lemma combo2_score : combo2.score = 85 := by
  show calculate_outfit_score [redImage, redImage, redImage] "casual" "" = 85
  unfold calculate_outfit_score
  rw [if_neg (by decide)]
  rw [all_red_eval (allColors [redImage, redImage, redImage]) (by decide) (by decide)]
  exact score_analogous_casual

lemma combo3_score : combo3.score = 85 := by
  show calculate_outfit_score [redImage, redImage] "casual" "" = 85
  unfold calculate_outfit_score
  rw [if_neg (by decide)]
  rw [all_red_eval (allColors [redImage, redImage]) (by decide) (by decide)]
  exact score_analogous_casual

lemma combo0_harmony : combo0.harmony = "analogous" := by
  show analyze_color_harmony (allColorsTop2 [redBlueImage, redImage, redImage, redImage])
      = "analogous"
  exact all_red_eval _ (by decide) (by decide)

lemma combo1_harmony : combo1.harmony = "analogous" := by
  show analyze_color_harmony (allColorsTop2 [redImage, redImage, redImage, redImage])
      = "analogous"
  exact all_red_eval _ (by decide) (by decide)

lemma combo0_rating : combo0.rating = 4 := by
  have h : combo0.rating = rating_of combo0.score := rfl
  rw [h, combo0_score]
  exact rating_eval_71

lemma combo1_rating : combo1.rating = 5 := by
  have h : combo1.rating = rating_of combo1.score := rfl
  rw [h, combo1_score]
  exact rating_eval_85

lemma generate_mismatch_eval :
    generate_combinations mismatchImages "casual" "" ""
      = Except.ok [combo1, combo2, combo3, combo0] := by
  unfold generate_combinations
  rw [if_neg (by decide)]
  rw [show (List.range (min 4 mismatchImages.length)).map
      (mkCombination mismatchImages "casual" "") = [combo0, combo1, combo2, combo3] from rfl]
  have hsort : sortByScoreDesc [combo0, combo1, combo2, combo3]
      = [combo1, combo2, combo3, combo0] := by
    simp only [sortByScoreDesc, insertByScore, combo0_score, combo1_score,
      combo2_score, combo3_score]
    norm_num
  rw [hsort]

/-- C3 counterexample: in one `generate-combinations` call on
`mismatchImages` with occasion `casual`, the first and last returned
combinations both carry the `harmony` field `analogous` (computed from the
top-2 colors per image) yet have scores 85 vs 71 and ratings 5 vs 4, because
the score is computed from the full color lists, where the first
combination's hidden third color makes the harmony `diverse`. -/
theorem C3_determinism_counterexample :
    generate_combinations mismatchImages "casual" "" ""
        = Except.ok [combo1, combo2, combo3, combo0] ∧
    combo1 ∈ [combo1, combo2, combo3, combo0] ∧
    combo0 ∈ [combo1, combo2, combo3, combo0] ∧
    combo1.harmony = combo0.harmony ∧
    combo1.score ≠ combo0.score ∧
    combo1.rating ≠ combo0.rating := by
  refine ⟨generate_mismatch_eval, by simp, by simp, ?_, ?_, ?_⟩
  · rw [combo1_harmony, combo0_harmony]
  · rw [combo1_score, combo0_score]
    decide
  · rw [combo1_rating, combo0_rating]
    decide

/-- C3 (amended): score and rating of a backend combination are
deterministic functions of the occasion and of the harmony label of the
combination's full color list (which the endpoint does not return — the
returned `harmony` field is recomputed from only the top 2 colors per image
and can disagree): two image lists with nonempty colors, equal full-list
harmony label and equal occasion always receive equal score and equal
rating, whatever the color preferences. -/
theorem C3_full_harmony_determinism (imgs1 imgs2 : List ImageData)
    (occ p1 p2 : String)
    (h1 : allColors imgs1 ≠ []) (h2 : allColors imgs2 ≠ [])
    (hh : analyze_color_harmony (allColors imgs1)
        = analyze_color_harmony (allColors imgs2)) :
    calculate_outfit_score imgs1 occ p1 = calculate_outfit_score imgs2 occ p2 ∧
    rating_of (calculate_outfit_score imgs1 occ p1)
      = rating_of (calculate_outfit_score imgs2 occ p2) := by
  have hs : calculate_outfit_score imgs1 occ p1 = calculate_outfit_score imgs2 occ p2 := by
    unfold calculate_outfit_score
    rw [if_neg h1, if_neg h2, hh]
  exact ⟨hs, by rw [hs]⟩

/-- Witness for the amended C3 at concrete inputs: one red image versus two
red images, both of full-list harmony `analogous`, get equal scores and
ratings under occasion `casual` despite different color preferences. -/
theorem C3_full_harmony_witness :
    calculate_outfit_score [redImage] "casual" "bright" =
      calculate_outfit_score [redImage, redImage] "casual" "dark" ∧
    rating_of (calculate_outfit_score [redImage] "casual" "bright")
      = rating_of (calculate_outfit_score [redImage, redImage] "casual" "dark") :=
  C3_full_harmony_determinism [redImage] [redImage, redImage] "casual" "bright" "dark"
    (by decide) (by decide)
    (by rw [all_red_eval (allColors [redImage]) (by decide) (by decide),
            all_red_eval (allColors [redImage, redImage]) (by decide) (by decide)])

/-! ### Color extraction: degenerate inputs and centroid order -/

lemma kmNone_contract : kmeansContract kmNone :=
  ⟨fun _ => rfl, fun px k clusters h => by simp [kmNone] at h⟩

lemma km0_contract : kmeansContract km0 := by
  constructor
  · intro k
    unfold km0
    rw [if_neg]
    rintro ⟨h1, -⟩
    exact absurd h1 (by decide)
  · intro px k clusters h
    unfold km0 at h
    split at h
    · rename_i hcond
      obtain ⟨rfl, rfl⟩ := hcond
      injection h with h
      subst h
      exact ⟨rfl, by decide, List.Perm.refl cexPx⟩
    · exact absurd h (by simp)

lemma centroid_single (c : RGB) : centroid [c] = c := by
  cases c with
  | mk r g b => simp [centroid, pyInt]

lemma centroid_replicate_black : centroid (List.replicate 9 black) = black := by
  simp [centroid, black, pyInt, List.map_replicate, List.sum_replicate]

lemma centroid_black9 :
    centroid [black, black, black, black, black, black, black, black, black] = black := by
  norm_num [centroid, black, pyInt]

lemma hex_white : hexOfRGB white = "#ffffff" := by decide

lemma hex_black : hexOfRGB black = "#000000" := by decide

/-- C5 counterexample: an unreadable image (`cv2.imread` returning `None`)
makes the extractor return the empty list, not the `['#000000', '#FFFFFF']`
fallback pair — only an exception inside the `try` block produces the pair. -/
theorem C5_unreadable_counterexample :
    kmeansContract kmNone ∧
    extract_dominant_colors kmNone ImageInput.unreadable 5 = [] ∧
    extract_dominant_colors kmNone ImageInput.unreadable 5 ≠ ["#000000", "#FFFFFF"] :=
  ⟨kmNone_contract, rfl, by decide⟩

/-- C5 (amended): no degenerate input fails the caller, but the two
degenerate cases produce different safe values: an unreadable image yields
`[]`, while a processing exception (clustering an image with zero pixels
raises inside the `try`) yields the fallback pair `['#000000', '#FFFFFF']`. -/
theorem C5_degenerate_fallback (km : List RGB → ℕ → Option (List (List RGB)))
    (hkm : kmeansContract km) (num_colors : ℕ) :
    extract_dominant_colors km ImageInput.unreadable num_colors = [] ∧
    extract_dominant_colors km (ImageInput.pixels []) num_colors
      = ["#000000", "#FFFFFF"] := by
  refine ⟨rfl, ?_⟩
  simp [extract_dominant_colors, hkm.1 num_colors]

/-- Witness for the amended C5 at the concrete always-raising oracle. -/
theorem C5_degenerate_witness :
    extract_dominant_colors kmNone ImageInput.unreadable 5 = [] ∧
    extract_dominant_colors kmNone (ImageInput.pixels []) 5 = ["#000000", "#FFFFFF"] :=
  C5_degenerate_fallback kmNone kmNone_contract 5

/-- C6 counterexample: a contract-respecting clustering of ten pixels (one
white, nine black) that labels the singleton white cluster first makes the
extractor emit `#ffffff` before `#000000` — the reverse of the
largest-cluster-first order the claim asserts, which the code never
establishes. -/
theorem C6_order_counterexample :
    kmeansContract km0 ∧
    km0 cexPx 2 = some [[white], List.replicate 9 black] ∧
    extract_dominant_colors km0 (ImageInput.pixels cexPx) 2 = ["#ffffff", "#000000"] ∧
    (sortClustersBySize [[white], List.replicate 9 black]).map
        (fun cluster => hexOfRGB (centroid cluster)) = ["#000000", "#ffffff"] ∧
    (["#ffffff", "#000000"] : List String) ≠ ["#000000", "#ffffff"] := by
  refine ⟨km0_contract, rfl, ?_, ?_, by decide⟩
  · simp only [extract_dominant_colors]
    rw [show km0 cexPx 2 = some [[white], List.replicate 9 black] from rfl]
    simp [centroid_single, centroid_replicate_black, centroid_black9, hex_white, hex_black]
  · rw [show sortClustersBySize [[white], List.replicate 9 black]
        = [List.replicate 9 black, [white]] from by decide]
    simp [centroid_single, centroid_replicate_black, centroid_black9, hex_white, hex_black]

/-- C6 (amended): on a successful clustering of a readable image the
extractor returns exactly `num_colors` colors (hence at most that many), one
per cluster centroid in the library's label order; the code performs no
reordering by cluster size. -/
theorem C6_extractor_output (km : List RGB → ℕ → Option (List (List RGB)))
    (hkm : kmeansContract km) (px : List RGB) (k : ℕ) (clusters : List (List RGB))
    (h : km px k = some clusters) :
    extract_dominant_colors km (ImageInput.pixels px) k
        = clusters.map (fun cluster => hexOfRGB (centroid cluster)) ∧
    (extract_dominant_colors km (ImageInput.pixels px) k).length = k := by
  have he : extract_dominant_colors km (ImageInput.pixels px) k
      = clusters.map fun cluster => hexOfRGB (centroid cluster) := by
    simp [extract_dominant_colors, h]
  refine ⟨he, ?_⟩
  rw [he, List.length_map]
  exact (hkm.2 px k clusters h).1

/-- Witness for the amended C6 at the concrete oracle `km0`. -/
theorem C6_extractor_witness :
    extract_dominant_colors km0 (ImageInput.pixels cexPx) 2
        = [[white], List.replicate 9 black].map
            (fun cluster => hexOfRGB (centroid cluster)) ∧
    (extract_dominant_colors km0 (ImageInput.pixels cexPx) 2).length = 2 :=
  C6_extractor_output km0 km0_contract cexPx 2 [[white], List.replicate 9 black] rfl

/-! ### The upload endpoint -/

/-- C7 counterexample: a request whose single file `a.txt` has no allowed
extension is answered with HTTP 200 and a success body holding zero
processed images — not with the 400 error the claim asserts. -/
theorem C7_disallowed_extension_counterexample :
    allowed_file "a.txt" = false ∧
    upload_images { hasImagesField := true, files := ["a.txt"] } = ApiResponse.ok [] ∧
    responseStatus (upload_images { hasImagesField := true, files := ["a.txt"] }) = 200 := by
  refine ⟨by decide, by decide, by decide⟩

/-- C7 (amended): `/api/upload` responds 400 with an error body exactly in
the first two no-valid-image cases — missing `images` field, or no file /
only empty filenames; when named files are present but none has an allowed
extension, it instead responds 200 with a success body and an empty
processed list. -/
theorem C7_upload_validation (req : UploadRequest) :
    (req.hasImagesField = false →
      upload_images req = ApiResponse.err 400 "No images provided") ∧
    (req.hasImagesField = true → (req.files = [] ∨ ∀ f ∈ req.files, f = "") →
      upload_images req = ApiResponse.err 400 "No images selected") ∧
    (req.hasImagesField = true → (∃ f ∈ req.files, f ≠ "") →
      (∀ f ∈ req.files, allowed_file f = false) →
      upload_images req = ApiResponse.ok [] ∧
      responseStatus (upload_images req) = 200) := by
  refine ⟨?_, ?_, ?_⟩
  · intro h
    unfold upload_images
    rw [if_pos h]
  · intro h hsel
    unfold upload_images
    rw [if_neg (by simp [h])]
    rw [if_pos ?_]
    rcases hsel with h1 | h1
    · exact Or.inl h1
    · right
      rw [List.all_eq_true]
      intro f hf
      simpa using h1 f hf
  · intro h hex hall
    obtain ⟨f0, hf0, hf0ne⟩ := hex
    have hnotsel : ¬(req.files = [] ∨ req.files.all (fun f => f == "") = true) := by
      rintro (h1 | h1)
      · rw [h1] at hf0
        exact List.not_mem_nil f0 hf0
      · rw [List.all_eq_true] at h1
        exact hf0ne (by simpa using h1 f0 hf0)
    have hfil : (req.files.filter fun f => (!(f == "")) && allowed_file f) = [] := by
      rw [List.filter_eq_nil_iff]
      intro f hf
      simp [hall f hf]
    have hok : upload_images req = ApiResponse.ok [] := by
      unfold upload_images
      rw [if_neg (by simp [h]), if_neg hnotsel, hfil]
    exact ⟨hok, by rw [hok]; rfl⟩

/-- Witness for the amended C7: the missing-field case at a concrete
request. -/
theorem C7_upload_witness :
    upload_images { hasImagesField := false, files := [] }
      = ApiResponse.err 400 "No images provided" :=
  (C7_upload_validation { hasImagesField := false, files := [] }).1 rfl

/-! ### Front-end working set -/

/-- C8: in `script.js`, uploading an image file (whose `onload` callback
appends an entry with a fresh id) and then removing it by that id restores
the working set exactly; in particular the round trip from the empty set
ends empty. -/
theorem C8_upload_remove_roundtrip (st : List FileData) (f : JSFile)
    (himg : startsWithStr "image/" f.mime = true)
    (hfresh : ∀ e ∈ st, e.id ≠ f.entry.id) :
    removeImage (processFiles st [f]) f.entry.id = st ∧
    removeImage (processFiles [] [f]) f.entry.id = [] := by
  have key : ∀ s : List FileData, (∀ e ∈ s, e.id ≠ f.entry.id) →
      removeImage (processFiles s [f]) f.entry.id = s := by
    intro s hs
    have happ : processFiles s [f] = s ++ [f.entry] := by
      unfold processFiles
      rw [show List.filter (fun g => startsWithStr "image/" g.mime) [f] = [f] from by
        simp [List.filter, himg]]
      rfl
    rw [happ]
    unfold removeImage
    rw [List.filter_append]
    rw [List.filter_eq_self.mpr fun e he => decide_eq_true (hs e he)]
    simp
  exact ⟨key st hfresh, key [] (by simp)⟩

/-- Witness for C8: a concrete non-empty working set, upload of `b.png`
with fresh id 2, then removal by id 2. -/
theorem C8_roundtrip_witness :
    removeImage (processFiles [⟨1, "a.png"⟩] [⟨"image/png", ⟨2, "b.png"⟩⟩])
        (⟨"image/png", (⟨2, "b.png"⟩ : FileData)⟩ : JSFile).entry.id = [⟨1, "a.png"⟩] :=
  (C8_upload_remove_roundtrip [⟨1, "a.png"⟩] ⟨"image/png", ⟨2, "b.png"⟩⟩
    (by decide)
    (by
      intro e he
      rw [List.mem_singleton] at he
      subst he
      norm_num)).1

/-- C10: the class-based variant does NOT preserve the 12-entry bound its
own comment (`// Limit to 12 images`) promises: one `processFiles` call on
an empty working set with 13 image files ends with 13 entries, because every
length guard runs before any `onload` push; `removeImage` does only ever
shrink the list. -/
theorem C10_image_limit_overflow :
    (AIStyleMatcher.processFiles (fun _ => 0) []
        (List.replicate 13 ⟨"shirt.png", "image/png"⟩)).length = 13 ∧
    12 < (AIStyleMatcher.processFiles (fun _ => 0) []
        (List.replicate 13 ⟨"shirt.png", "image/png"⟩)).length ∧
    ∀ (st : List AIStyleMatcher.UploadedImage) (imageId : ℚ),
      (AIStyleMatcher.removeImage st imageId).length ≤ st.length := by
  have h13 : (AIStyleMatcher.processFiles (fun _ => 0) []
      (List.replicate 13 ⟨"shirt.png", "image/png"⟩)).length = 13 := by
    decide
  exact ⟨h13, by omega, fun st imageId => List.length_filter_le _ st⟩
